import Mathlib

/-!
Shallow embedding of the DynamoDB attribute-cleanup pipeline
(src/dynamodb_cleanup_script.js).

Records are modelled as association lists from field name to value
(values are never inspected by the pipeline, only field presence, so a
String value type suffices).  The remote store is modelled as an oracle:
a list of page responses for the scanner, and a function from call
number to response for the mutator.  Time is modelled by recording each
sleep as an event; the random jitter of the backoff calculator is an
explicit parameter constrained to the interval it is drawn from.
Operations that can throw are embedded in the Except monad, with throw
used exactly where the source rethrows.
-/

namespace DynamoCleanup

/-- A record of the table: an association list from field name to value
(a JS object, as produced by unmarshall). -/
abbrev Item := List (String × String)

/-- JS item.hasOwnProperty(attr): the field is present on the record. -/
def hasOwnProperty (item : Item) (attr : String) : Bool :=
  item.any (fun p => p.1 == attr)

/-- Errors thrown by the store client.  The code distinguishes the two
rate-limiting error names from everything else. -/
inductive StoreErr where
  | provisionedThroughputExceeded
  | throttling
  | other (name : String)
deriving DecidableEq, Repr

/-- The error-name test of lines 61-62 / 126-127:
name is ProvisionedThroughputExceededException or ThrottlingException. -/
def StoreErr.isRateLimit : StoreErr → Bool
  | .provisionedThroughputExceeded => true
  | .throttling => true
  | .other _ => false

/-- calculateBackoffDelay (line 24-26):
min(baseDelay * 2^attempt + Math.random() * 1000, 30000).
The jitter Math.random() * 1000 is passed explicitly; callers constrain
it to 0 ≤ jitter < 1000. -/
def calculateBackoffDelay (attempt : ℕ) (baseDelay : ℚ) (jitter : ℚ) : ℚ :=
  min (baseDelay * 2 ^ attempt + jitter) 30000

/-- filterItemsWithAttributes (lines 81-85): keep the items having at
least one of the attributes to remove. -/
def filterItemsWithAttributes (items : List Item) (attributesToRemove : List String) :
    List Item :=
  items.filter (fun item => attributesToRemove.any (fun attr => hasOwnProperty item attr))

/-- The placeholder name #attrN of line 95/99. -/
def placeholderName (i : ℕ) : String := "#attr" ++ toString i

/-- The REMOVE expression of line 95, determined by the number of
placeholders alone. -/
def removeExpressionString (k : ℕ) : String :=
  "REMOVE " ++ String.intercalate ", " ((List.range k).map placeholderName)

/-- The non-null result of createUpdateExpression (lines 102-105). -/
structure UpdateExpr where
  UpdateExpression : String
  ExpressionAttributeNames : List (String × String)
deriving DecidableEq, Repr

/-- createUpdateExpression (lines 88-106): null when no attribute of the
removal list is present on the item, otherwise a REMOVE expression over
placeholders #attr0, #attr1, ... with the placeholder-to-name map. -/
def createUpdateExpression (attributesToRemove : List String) (item : Item) :
    Option UpdateExpr :=
  let existingAttributes := attributesToRemove.filter (fun attr => hasOwnProperty item attr)
  if existingAttributes.isEmpty then
    none
  else
    some
      { UpdateExpression := removeExpressionString existingAttributes.length
        ExpressionAttributeNames :=
          existingAttributes.enum.map (fun p => (placeholderName p.1, p.2)) }

/-- The store's answer to one UpdateItemCommand send (line 122): success,
or a thrown error. -/
inductive UpdResp where
  | ok
  | err (e : StoreErr)
deriving DecidableEq, Repr

/-- Observable outcome of updateItemWithRetry: the returned boolean, the
number of UpdateItemCommand sends, and the backoff sleeps performed (as
the attempt numbers passed to calculateBackoffDelay, in order). -/
structure UpdResult where
  success : Bool
  calls : ℕ
  sleeps : List ℕ
deriving DecidableEq, Repr

/-- The while loop of updateItemWithRetry (lines 112-140), from state
attempt.  The store oracle gives the outcome of the k-th send (each loop
iteration sends once, so the send of the iteration at attempt a is send
a).  An error caught at line 125 either leads to a backoff sleep, an
attempt increment and a retry (lines 126-133) or to returning false
(lines 137-138); it is never rethrown, hence no Except.error here. -/
def updateRetryLoop (store : ℕ → UpdResp) (maxRetries attempt : ℕ) (sleeps : List ℕ) :
    Except StoreErr UpdResult :=
  if attempt < maxRetries then
    match store attempt with
    | .ok => .ok ⟨true, attempt + 1, sleeps⟩
    | .err e =>
      if (StoreErr.isRateLimit e) ∧ attempt < maxRetries - 1 then
        updateRetryLoop store maxRetries (attempt + 1) (sleeps ++ [attempt])
      else
        .ok ⟨false, attempt + 1, sleeps⟩
  else
    .ok ⟨false, attempt, sleeps⟩
termination_by maxRetries - attempt
decreasing_by omega

/-- updateItemWithRetry (lines 109-143): the loop started at attempt 0.
The request payload (table name, key, update expression) does not
influence control flow and is absorbed into the store oracle. -/
def updateItemWithRetry (store : ℕ → UpdResp) (maxRetries : ℕ) :
    Except StoreErr UpdResult :=
  updateRetryLoop store maxRetries 0 []

/-- The store's answer to one ScanCommand send (line 44): a page
(Items may be absent, LastEvaluatedKey may be absent), or a thrown
error.  Continuation tokens are modelled as naturals. -/
inductive ScanResp where
  | page (items : Option (List Item)) (lastEvaluatedKey : Option ℕ)
  | err (e : StoreErr)
deriving DecidableEq, Repr

/-- A sleep performed by the scanner: the 50ms pacing delay between
pages (line 57), or the backoff delay of line 64 with the attempt number
passed to calculateBackoffDelay. -/
inductive ScanEvent where
  | pacing
  | backoff (attempt : ℕ)
deriving DecidableEq, Repr

/-- What a terminated scan produced: the accumulated items and the
sleeps performed, in order. -/
structure ScanOut where
  items : List Item
  events : List ScanEvent
deriving DecidableEq, Repr

/-- The do-while loop of scanAllItems (lines 36-69), consuming one store
response per iteration.  State: the current lastEvaluatedKey and the
accumulators.  On a page: append its items (if present), take the new
lastEvaluatedKey, pace-sleep if it is present, then the while condition
tests it.  On a caught rate-limit error: backoff-sleep with fixed
attempt 1, then continue — which in a JS do-while jumps to the while
condition, so the current lastEvaluatedKey decides whether the loop
body runs again.  Any other error is rethrown (line 67).  Returns none
when the oracle has fewer responses than the loop requests. -/
def scanLoop (responses : List ScanResp) (lastEvaluatedKey : Option ℕ)
    (items : List Item) (events : List ScanEvent) :
    Except StoreErr (Option ScanOut) :=
  match responses with
  | [] => .ok none
  | r :: rest =>
    match r with
    | .page pageItems newKey =>
      let items2 := items ++ pageItems.getD []
      let events2 := events ++ (if newKey.isSome then [ScanEvent.pacing] else [])
      if newKey.isSome then
        scanLoop rest newKey items2 events2
      else
        .ok (some ⟨items2, events2⟩)
    | .err e =>
      if StoreErr.isRateLimit e then
        let events2 := events ++ [ScanEvent.backoff 1]
        if lastEvaluatedKey.isSome then
          scanLoop rest lastEvaluatedKey items events2
        else
          .ok (some ⟨items, events2⟩)
      else
        .error e

/-- scanAllItems (lines 29-73): the loop started with no continuation
token and empty accumulators. -/
def scanAllItems (responses : List ScanResp) : Except StoreErr (Option ScanOut) :=
  scanLoop responses none [] []

/-- The batch-grouping for-loop of processItemsInBatches (lines 150-152):
slices of length batchSize taken from the front.  The JS loop does not
terminate when batchSize is 0 (the index never advances); the claims
only concern positive batch sizes, and this embedding returns [] there. -/
def chunkBatches (batchSize : ℕ) (items : List Item) : List (List Item) :=
  match batchSize, items with
  | _, [] => []
  | 0, _ :: _ => []
  | b + 1, x :: xs => ((x :: xs).take (b + 1)) :: chunkBatches (b + 1) ((x :: xs).drop (b + 1))
termination_by items.length
decreasing_by simp [List.length_drop]; omega

/-- One batch of the loop at lines 159-197: run the mutator once per
item and fold the outcomes into the running (successCount, errorCount)
pair (lines 182-188).  The store behaviour of each item's sends is given
by the per-item oracle respOf.  An error escaping updateItemWithRetry
would propagate (reject the Promise.all); the counting itself is
error-free. -/
def runBatch (respOf : Item → ℕ → UpdResp) (maxRetries : ℕ)
    (batch : List Item) (acc : ℕ × ℕ) : Except StoreErr (ℕ × ℕ) :=
  match batch with
  | [] => .ok acc
  | item :: rest => do
    let r ← updateItemWithRetry (respOf item) maxRetries
    runBatch respOf maxRetries rest
      (if r.success then (acc.1 + 1, acc.2) else (acc.1, acc.2 + 1))

/-- The outer batch loop of lines 159-197, batch after batch. -/
def runBatches (respOf : Item → ℕ → UpdResp) (maxRetries : ℕ)
    (batches : List (List Item)) (acc : ℕ × ℕ) : Except StoreErr (ℕ × ℕ) :=
  match batches with
  | [] => .ok acc
  | b :: rest => do
    let acc2 ← runBatch respOf maxRetries b acc
    runBatches respOf maxRetries rest acc2

/-- processItemsInBatches (lines 146-200): group into batches, process
them in order, return { successCount, errorCount }.  The fixed 200ms
inter-batch delay (line 192) affects no observable of the claims and is
not recorded. -/
def processItemsInBatches (respOf : Item → ℕ → UpdResp) (maxRetries batchSize : ℕ)
    (items : List Item) : Except StoreErr (ℕ × ℕ) :=
  runBatches respOf maxRetries (chunkBatches batchSize items) (0, 0)

/-! ### Unfolding equations and invariants of the retry loop -/

/-- While condition false (line 112): return false, nothing sent. -/
theorem updateRetryLoop_stop (store : ℕ → UpdResp) (maxRetries attempt : ℕ)
    (sleeps : List ℕ) (h : ¬ attempt < maxRetries) :
    updateRetryLoop store maxRetries attempt sleeps = .ok ⟨false, attempt, sleeps⟩ := by
  rw [updateRetryLoop, if_neg h]

/-- Successful send (line 123): return true. -/
theorem updateRetryLoop_send_ok (store : ℕ → UpdResp) (maxRetries attempt : ℕ)
    (sleeps : List ℕ) (h : attempt < maxRetries) (hs : store attempt = .ok) :
    updateRetryLoop store maxRetries attempt sleeps = .ok ⟨true, attempt + 1, sleeps⟩ := by
  rw [updateRetryLoop, if_pos h, hs]

/-- Rate-limit error with remaining retries (lines 126-133): backoff
sleep with the current attempt number, increment, retry. -/
theorem updateRetryLoop_send_retry (store : ℕ → UpdResp) (maxRetries attempt : ℕ)
    (sleeps : List ℕ) (e : StoreErr) (h : attempt < maxRetries)
    (hs : store attempt = .err e)
    (hc : StoreErr.isRateLimit e = true ∧ attempt < maxRetries - 1) :
    updateRetryLoop store maxRetries attempt sleeps =
      updateRetryLoop store maxRetries (attempt + 1) (sleeps ++ [attempt]) := by
  rw [updateRetryLoop, if_pos h, hs]
  exact if_pos hc

/-- Any other caught error (lines 137-138): return false, no rethrow. -/
theorem updateRetryLoop_send_fail (store : ℕ → UpdResp) (maxRetries attempt : ℕ)
    (sleeps : List ℕ) (e : StoreErr) (h : attempt < maxRetries)
    (hs : store attempt = .err e)
    (hc : ¬(StoreErr.isRateLimit e = true ∧ attempt < maxRetries - 1)) :
    updateRetryLoop store maxRetries attempt sleeps = .ok ⟨false, attempt + 1, sleeps⟩ := by
  rw [updateRetryLoop, if_pos h, hs]
  exact if_neg hc

/-- The retry loop always returns (never an Except.error), and from an
attempt count within bounds it makes at most maxRetries sends in
total. -/
theorem updateRetryLoop_ok (store : ℕ → UpdResp) :
    ∀ (n maxRetries attempt : ℕ) (sleeps : List ℕ), maxRetries - attempt ≤ n →
      ∃ r : UpdResult, updateRetryLoop store maxRetries attempt sleeps = .ok r ∧
        (attempt ≤ maxRetries → r.calls ≤ maxRetries) := by
  intro n
  induction n with
  | zero =>
    intro maxRetries attempt sleeps hn
    refine ⟨⟨false, attempt, sleeps⟩, updateRetryLoop_stop _ _ _ _ (by omega), fun hle => hle⟩
  | succ n ih =>
    intro maxRetries attempt sleeps hn
    by_cases h : attempt < maxRetries
    · cases hs : store attempt with
      | ok =>
        exact ⟨⟨true, attempt + 1, sleeps⟩, updateRetryLoop_send_ok _ _ _ _ h hs,
          fun _ => by simpa using h⟩
      | err e =>
        by_cases hc : StoreErr.isRateLimit e = true ∧ attempt < maxRetries - 1
        · obtain ⟨r, hr, hcalls⟩ := ih maxRetries (attempt + 1) (sleeps ++ [attempt]) (by omega)
          exact ⟨r, (updateRetryLoop_send_retry _ _ _ _ _ h hs hc).trans hr,
            fun _ => hcalls (by omega)⟩
        · exact ⟨⟨false, attempt + 1, sleeps⟩, updateRetryLoop_send_fail _ _ _ _ _ h hs hc,
            fun _ => by simpa using h⟩
    · exact ⟨⟨false, attempt, sleeps⟩, updateRetryLoop_stop _ _ _ _ h, fun hle => hle⟩

/-- updateItemWithRetry always returns a boolean outcome. -/
theorem updateItemWithRetry_ok (store : ℕ → UpdResp) (maxRetries : ℕ) :
    ∃ r : UpdResult, updateItemWithRetry store maxRetries = .ok r ∧
      r.calls ≤ maxRetries := by
  obtain ⟨r, hr, hcalls⟩ :=
    updateRetryLoop_ok store maxRetries maxRetries 0 [] (by omega)
  exact ⟨r, hr, hcalls (Nat.zero_le _)⟩

/-! ### Counting invariants of the batch loops -/

/-- Reduction of the Except bind on a success value. -/
theorem okBind {e a b : Type} (x : a) (f : a → Except e b) :
    (do let y ← (Except.ok x : Except e a); f y) = f x := rfl

/-- One batch adds exactly its item count, split between the two
counters, and never fails. -/
theorem runBatch_counts (respOf : Item → ℕ → UpdResp) (maxRetries : ℕ) :
    ∀ (batch : List Item) (acc : ℕ × ℕ), ∃ sc ec,
      runBatch respOf maxRetries batch acc = .ok (sc, ec) ∧
      sc + ec = acc.1 + acc.2 + batch.length := by
  intro batch
  induction batch with
  | nil => exact fun acc => ⟨acc.1, acc.2, rfl, by simp⟩
  | cons item rest ih =>
    intro acc
    obtain ⟨r, hr, _⟩ := updateItemWithRetry_ok (respOf item) maxRetries
    by_cases hs : r.success
    · obtain ⟨sc, ec, hrun, hsum⟩ := ih (acc.1 + 1, acc.2)
      refine ⟨sc, ec, ?_, by simp at hsum ⊢; omega⟩
      simp only [runBatch, hr, okBind]
      rw [if_pos hs]
      exact hrun
    · obtain ⟨sc, ec, hrun, hsum⟩ := ih (acc.1, acc.2 + 1)
      refine ⟨sc, ec, ?_, by simp at hsum ⊢; omega⟩
      simp only [runBatch, hr, okBind]
      rw [if_neg hs]
      exact hrun

/-- Batch after batch, the counters add up to the initial counters plus
the total number of items across the batches. -/
theorem runBatches_counts (respOf : Item → ℕ → UpdResp) (maxRetries : ℕ) :
    ∀ (batches : List (List Item)) (acc : ℕ × ℕ), ∃ sc ec,
      runBatches respOf maxRetries batches acc = .ok (sc, ec) ∧
      sc + ec = acc.1 + acc.2 + (batches.map List.length).sum := by
  intro batches
  induction batches with
  | nil => exact fun acc => ⟨acc.1, acc.2, rfl, by simp⟩
  | cons b rest ih =>
    intro acc
    obtain ⟨sc1, ec1, hb, hsum1⟩ := runBatch_counts respOf maxRetries b acc
    obtain ⟨sc, ec, hrest, hsum⟩ := ih (sc1, ec1)
    refine ⟨sc, ec, ?_, by simp at hsum ⊢; omega⟩
    simp only [runBatches, hb, okBind]
    exact hrest

/-! ### Unfolding equations and invariants of the batch grouping -/

/-- Grouping an empty list yields no batches. -/
theorem chunkBatches_nil (b : ℕ) : chunkBatches b [] = [] := by
  rw [chunkBatches]

/-- Grouping a non-empty list: one slice, then the rest. -/
theorem chunkBatches_cons (b : ℕ) (x : Item) (xs : List Item) :
    chunkBatches (b + 1) (x :: xs) =
      ((x :: xs).take (b + 1)) :: chunkBatches (b + 1) ((x :: xs).drop (b + 1)) := by
  rw [chunkBatches]

/-- The concatenation of the batches is the original list. -/
theorem chunkBatches_flatten (b : ℕ) : ∀ (n : ℕ) (l : List Item), l.length ≤ n →
    (chunkBatches (b + 1) l).flatten = l := by
  intro n
  induction n with
  | zero =>
    intro l hl
    obtain rfl : l = [] := List.eq_nil_of_length_eq_zero (by omega)
    simp [chunkBatches_nil]
  | succ n ih =>
    intro l hl
    cases l with
    | nil => simp [chunkBatches_nil]
    | cons x xs =>
      rw [chunkBatches_cons, List.flatten_cons,
        ih ((x :: xs).drop (b + 1)) (by simp [List.length_drop] at hl ⊢; omega),
        List.take_append_drop]

/-- The number of batches is the ceiling of length over batch size. -/
theorem chunkBatches_length_eq (b : ℕ) : ∀ (n : ℕ) (l : List Item), l.length ≤ n →
    (chunkBatches (b + 1) l).length = (l.length + b) / (b + 1) := by
  intro n
  induction n with
  | zero =>
    intro l hl
    obtain rfl : l = [] := List.eq_nil_of_length_eq_zero (by omega)
    simp [chunkBatches_nil, Nat.div_eq_of_lt]
  | succ n ih =>
    intro l hl
    cases l with
    | nil => simp [chunkBatches_nil, Nat.div_eq_of_lt]
    | cons x xs =>
      rw [chunkBatches_cons, List.length_cons,
        ih ((x :: xs).drop (b + 1)) (by simp [List.length_drop] at hl ⊢; omega)]
      simp only [List.length_drop, List.length_cons]
      by_cases hm : xs.length ≤ b
      · have h0 : xs.length + 1 - (b + 1) = 0 := by omega
        rw [h0, Nat.zero_add, Nat.div_eq_of_lt (by omega), Nat.zero_add]
        exact (Nat.div_eq_of_lt_le (by omega) (by omega)).symm
      · have h1 : xs.length + 1 - (b + 1) + b = xs.length := by omega
        have h2 : xs.length + 1 + b = xs.length + (b + 1) := by omega
        rw [h1, h2, Nat.add_div_right _ (Nat.succ_pos b)]

/-- Every batch has at most the configured size. -/
theorem chunkBatches_size_le (b : ℕ) : ∀ (n : ℕ) (l : List Item), l.length ≤ n →
    ∀ g ∈ chunkBatches (b + 1) l, g.length ≤ b + 1 := by
  intro n
  induction n with
  | zero =>
    intro l hl
    obtain rfl : l = [] := List.eq_nil_of_length_eq_zero (by omega)
    simp [chunkBatches_nil]
  | succ n ih =>
    intro l hl
    cases l with
    | nil => simp [chunkBatches_nil]
    | cons x xs =>
      rw [chunkBatches_cons]
      intro g hg
      rcases List.mem_cons.mp hg with hg | hg
      · subst hg
        simp [List.length_take]
      · exact ih ((x :: xs).drop (b + 1))
          (by simp [List.length_drop] at hl ⊢; omega) g hg

/-- Every batch except possibly the last has exactly the configured
size. -/
theorem chunkBatches_size_eq (b : ℕ) : ∀ (n : ℕ) (l : List Item), l.length ≤ n →
    ∀ (i : ℕ) (g : List Item), i + 1 < (chunkBatches (b + 1) l).length →
      (chunkBatches (b + 1) l).get? i = some g → g.length = b + 1 := by
  intro n
  induction n with
  | zero =>
    intro l hl
    obtain rfl : l = [] := List.eq_nil_of_length_eq_zero (by omega)
    simp [chunkBatches_nil]
  | succ n ih =>
    intro l hl
    cases l with
    | nil => simp [chunkBatches_nil]
    | cons x xs =>
      rw [chunkBatches_cons]
      intro i g hi hget
      cases i with
      | zero =>
        have hrest : chunkBatches (b + 1) ((x :: xs).drop (b + 1)) ≠ [] := by
          intro hnil
          rw [List.length_cons, hnil] at hi
          simp at hi
        have hdrop : (x :: xs).drop (b + 1) ≠ [] := by
          intro hnil
          exact hrest (by rw [hnil, chunkBatches_nil])
        have hlen : b + 1 ≤ xs.length := by
          by_contra hcon
          exact hdrop (List.drop_eq_nil_of_le (by simp; omega))
        have hg : g = (x :: xs).take (b + 1) := by
          have := hget
          simp at this
          exact this.symm
        subst hg
        simp [List.length_take]
        omega
      | succ i =>
        refine ih ((x :: xs).drop (b + 1))
          (by simp [List.length_drop] at hl ⊢; omega) i g ?_ (by simpa using hget)
        rw [List.length_cons] at hi
        omega

/-- The total number of items across the batches. -/
theorem chunkBatches_sum_lengths (b : ℕ) (l : List Item) :
    ((chunkBatches (b + 1) l).map List.length).sum = l.length := by
  rw [← List.length_flatten, chunkBatches_flatten b l.length l le_rfl]

/-- The full batch pipeline always yields counts, and they add up to
the number of items processed. -/
theorem processItemsInBatches_total (respOf : Item → ℕ → UpdResp)
    (maxRetries B : ℕ) (items : List Item) (hB : 0 < B) :
    ∃ sc ec, processItemsInBatches respOf maxRetries B items = .ok (sc, ec) ∧
      sc + ec = items.length := by
  obtain ⟨b, rfl⟩ : ∃ b, B = b + 1 := ⟨B - 1, by omega⟩
  obtain ⟨sc, ec, hrun, hsum⟩ :=
    runBatches_counts respOf maxRetries (chunkBatches (b + 1) items) (0, 0)
  rw [chunkBatches_sum_lengths] at hsum
  exact ⟨sc, ec, hrun, by simpa using hsum⟩

/-! ### Theorems -/

/-- C5: filterItemsWithAttributes returns exactly the subsequence of the
records having at least one field of the removal list present (order
preserved, membership characterised, multiplicities preserved on kept
records), and a second application with the same list is the identity. -/
theorem filterItemsWithAttributes_select (records : List Item) (F : List String) :
    (filterItemsWithAttributes records F).Sublist records ∧
    (∀ r : Item, r ∈ filterItemsWithAttributes records F ↔
      r ∈ records ∧ F.any (fun attr => hasOwnProperty r attr) = true) ∧
    (∀ r : Item, (filterItemsWithAttributes records F).count r =
      if F.any (fun attr => hasOwnProperty r attr) then records.count r else 0) ∧
    filterItemsWithAttributes (filterItemsWithAttributes records F) F =
      filterItemsWithAttributes records F := by
  refine ⟨List.filter_sublist _, fun r => List.mem_filter, fun r => ?_, ?_⟩
  · by_cases hp : F.any (fun attr => hasOwnProperty r attr) = true
    · simp [filterItemsWithAttributes, List.count_filter, hp]
    · rw [if_neg hp]
      exact List.count_eq_zero.mpr (fun hmem => hp (List.mem_filter.mp hmem).2)
  · exact List.filter_eq_self.mpr (fun a ha => (List.mem_filter.mp ha).2)

/-- C6: createUpdateExpression is null exactly when the item carries no
field of the removal list; otherwise the placeholder map sends
#attr0, #attr1, ... to exactly the present fields of the removal list
(in order), and the REMOVE expression is a function of their number
alone — field names occur only through the placeholder map. -/
theorem createUpdateExpression_removal (F : List String) (r : Item) :
    (createUpdateExpression F r = none ↔ ∀ attr ∈ F, hasOwnProperty r attr = false) ∧
    (∀ ue : UpdateExpr, createUpdateExpression F r = some ue →
      ue.ExpressionAttributeNames.map Prod.snd =
        F.filter (fun attr => hasOwnProperty r attr) ∧
      ue.ExpressionAttributeNames.map Prod.fst =
        (List.range (F.filter (fun attr => hasOwnProperty r attr)).length).map
          placeholderName ∧
      ue.UpdateExpression =
        removeExpressionString (F.filter (fun attr => hasOwnProperty r attr)).length) := by
  have hiff : (F.filter (fun attr => hasOwnProperty r attr)).isEmpty = true ↔
      ∀ attr ∈ F, hasOwnProperty r attr = false := by
    rw [List.isEmpty_iff, List.filter_eq_nil_iff]
    constructor
    · intro h attr ha
      simpa using h attr ha
    · intro h attr ha
      simp [h attr ha]
  constructor
  · simp only [createUpdateExpression]
    by_cases he : (F.filter (fun attr => hasOwnProperty r attr)).isEmpty = true
    · rw [if_pos he]
      exact iff_of_true rfl (hiff.mp he)
    · rw [if_neg he]
      exact iff_of_false (by simp) (fun h => he (hiff.mpr h))
  · intro ue hue
    simp only [createUpdateExpression] at hue
    by_cases he : (F.filter (fun attr => hasOwnProperty r attr)).isEmpty = true
    · rw [if_pos he] at hue
      exact absurd hue (by simp)
    · rw [if_neg he] at hue
      have hueq := Option.some.inj hue
      subst hueq
      refine ⟨?_, ?_, rfl⟩
      · rw [List.map_map]
        have hcomp : (Prod.snd ∘ fun p : ℕ × String => (placeholderName p.1, p.2)) =
            Prod.snd := funext fun p => rfl
        rw [hcomp, List.enum_map_snd]
      · rw [List.map_map]
        have hcomp : (Prod.fst ∘ fun p : ℕ × String => (placeholderName p.1, p.2)) =
            placeholderName ∘ Prod.fst := funext fun p => rfl
        rw [hcomp, ← List.map_map, List.enum_map_fst]

/-- C7 counterexample: at attempt 10, base 100 (both within the claim's
constraints, jitter 0 in [0, 1000)), the capped delay is 30000, strictly
below base * 2^attempt = 102400 — refuting the claimed lower bound
delay(a) ≥ base * 2^a. -/
theorem calculateBackoffDelay_lower_bound_cex :
    (0 : ℚ) < 100 ∧ ((0 : ℚ) ≤ 0 ∧ (0 : ℚ) < 1000) ∧
    calculateBackoffDelay 10 100 0 < 100 * 2 ^ 10 := by
  norm_num [calculateBackoffDelay]

/-- C7 (amended): the delay is min(base * 2^a + jitter, 30000); it never
exceeds 30000, is at least min(base * 2^a, 30000), and is at least
base * 2^a whenever base * 2^a + jitter does not exceed the 30000 cap. -/
theorem calculateBackoffDelay_bounds (a : ℕ) (base jitter : ℚ)
    (hbase : 0 < base) (hj0 : 0 ≤ jitter) (hj1 : jitter < 1000) :
    calculateBackoffDelay a base jitter = min (base * 2 ^ a + jitter) 30000 ∧
    calculateBackoffDelay a base jitter ≤ 30000 ∧
    min (base * 2 ^ a) 30000 ≤ calculateBackoffDelay a base jitter ∧
    (base * 2 ^ a + jitter ≤ 30000 →
      base * 2 ^ a ≤ calculateBackoffDelay a base jitter) := by
  refine ⟨rfl, min_le_right _ _, ?_, ?_⟩
  · exact min_le_min (by linarith) le_rfl
  · intro hcap
    simp only [calculateBackoffDelay, min_eq_left hcap]
    linarith

/-- C7 witness: the amended bounds at attempt 0, base 100, jitter 0. -/
theorem calculateBackoffDelay_bounds_witness :
    calculateBackoffDelay 0 100 0 = min (100 * 2 ^ 0 + 0) 30000 ∧
    calculateBackoffDelay 0 100 0 ≤ 30000 ∧
    min ((100 : ℚ) * 2 ^ 0) 30000 ≤ calculateBackoffDelay 0 100 0 ∧
    ((100 : ℚ) * 2 ^ 0 + 0 ≤ 30000 → (100 : ℚ) * 2 ^ 0 ≤ calculateBackoffDelay 0 100 0) :=
  calculateBackoffDelay_bounds 0 100 0 (by norm_num) (by norm_num) (by norm_num)

/-- C10: with maxRetries = 0 the while condition fails immediately, so
the mutator returns false having sent nothing and slept never, whatever
the store would have answered. -/
theorem updateItemWithRetry_zero_retries (store : ℕ → UpdResp) :
    updateItemWithRetry store 0 = .ok ⟨false, 0, []⟩ := by
  rw [updateItemWithRetry, updateRetryLoop]
  simp

/-- C9: two successful pages, the first with a continuation token and
100 items, the second with 47 items and no token: the scan returns the
147 items in page order, and the only sleep is the single inter-page
pacing delay. -/
theorem scanAllItems_two_pages (p1 p2 : List Item) (t : ℕ)
    (h1 : p1.length = 100) (h2 : p2.length = 47) :
    scanAllItems [ScanResp.page (some p1) (some t), ScanResp.page (some p2) none] =
      .ok (some ⟨p1 ++ p2, [ScanEvent.pacing]⟩) ∧
    (p1 ++ p2).length = 147 := by
  constructor
  · simp [scanAllItems, scanLoop]
  · simp [h1, h2]

/-- C9 witness: the scenario at two concrete pages of 100 and 47
records. -/
theorem scanAllItems_two_pages_witness :
    scanAllItems [ScanResp.page (some (List.replicate 100 [("id", "a")])) (some 1),
        ScanResp.page (some (List.replicate 47 [("id", "b")])) none] =
      .ok (some ⟨List.replicate 100 [("id", "a")] ++ List.replicate 47 [("id", "b")],
        [ScanEvent.pacing]⟩) ∧
    (List.replicate 100 ([("id", "a")] : Item) ++ List.replicate 47 [("id", "b")]).length
      = 147 :=
  scanAllItems_two_pages (List.replicate 100 [("id", "a")])
    (List.replicate 47 [("id", "b")]) 1 (by simp) (by simp)

/-- C2 refuted by the code: when the very first page request is
throttled, the catch block sleeps the backoff delay and issues continue
— but continue in a JS do-while jumps to the while test, and
lastEvaluatedKey is still null there, so the loop exits: the scan
returns an empty item list after one backoff sleep instead of retrying
the first page (the store's pending successful page with one record is
never requested). -/
theorem scanAllItems_first_page_throttle_no_retry :
    scanAllItems [ScanResp.err .throttling,
        ScanResp.page (some [[("id", "1")]]) none] =
      .ok (some ⟨[], [ScanEvent.backoff 1]⟩) ∧
    scanAllItems [ScanResp.err .throttling,
        ScanResp.page (some [[("id", "1")]]) none] ≠
      .ok (some ⟨[[("id", "1")]], [ScanEvent.backoff 1]⟩) := by
  constructor
  · rfl
  · intro h
    simp [scanAllItems, scanLoop, StoreErr.isRateLimit] at h

/-- C8: for a positive batch size B, the scheduler partitions the list
into ceil(n/B) contiguous groups whose concatenation is the input, every
group of size at most B, and every group except possibly the last of
size exactly B. -/
theorem chunkBatches_partition (B : ℕ) (l : List Item) (hB : 0 < B) :
    (chunkBatches B l).length = (l.length + (B - 1)) / B ∧
    (chunkBatches B l).flatten = l ∧
    (∀ g ∈ chunkBatches B l, g.length ≤ B) ∧
    (∀ (i : ℕ) (g : List Item), i + 1 < (chunkBatches B l).length →
      (chunkBatches B l).get? i = some g → g.length = B) := by
  obtain ⟨b, rfl⟩ : ∃ b, B = b + 1 := ⟨B - 1, by omega⟩
  exact ⟨by simpa using chunkBatches_length_eq b l.length l le_rfl,
    chunkBatches_flatten b l.length l le_rfl,
    chunkBatches_size_le b l.length l le_rfl,
    chunkBatches_size_eq b l.length l le_rfl⟩

/-- C8 witness: batch size 2 over three records gives ceil(3/2) = 2
groups concatenating back to the input. -/
theorem chunkBatches_partition_witness :
    (chunkBatches 2 [[("a", "1")], [("b", "2")], [("c", "3")]]).length =
      (([[("a", "1")], [("b", "2")], [("c", "3")]] : List Item).length + (2 - 1)) / 2 ∧
    (chunkBatches 2 [[("a", "1")], [("b", "2")], [("c", "3")]]).flatten =
      [[("a", "1")], [("b", "2")], [("c", "3")]] :=
  ⟨(chunkBatches_partition 2 [[("a", "1")], [("b", "2")], [("c", "3")]] (by norm_num)).1,
   (chunkBatches_partition 2 [[("a", "1")], [("b", "2")], [("c", "3")]] (by norm_num)).2.1⟩

/-- C1: running the batch pipeline over the pending changes produced by
the filter always yields counts with succeeded + failed equal to the
number of pending changes; the pending changes are a subsequence of the
scanned records, so needingUpdate ≤ totalScanned. -/
theorem processItemsInBatches_counts_filter (respOf : Item → ℕ → UpdResp)
    (maxRetries B : ℕ) (records : List Item) (F : List String) (hB : 0 < B) :
    ∃ sc ec,
      processItemsInBatches respOf maxRetries B (filterItemsWithAttributes records F) =
        .ok (sc, ec) ∧
      sc + ec = (filterItemsWithAttributes records F).length ∧
      (filterItemsWithAttributes records F).Sublist records ∧
      (filterItemsWithAttributes records F).length ≤ records.length := by
  obtain ⟨sc, ec, hrun, hsum⟩ := processItemsInBatches_total respOf maxRetries B
    (filterItemsWithAttributes records F) hB
  exact ⟨sc, ec, hrun, hsum, List.filter_sublist _, (List.filter_sublist _).length_le⟩

/-- C1 witness: an all-success store over three records, one of which
the filter drops. -/
theorem processItemsInBatches_counts_filter_witness :
    ∃ sc ec,
      processItemsInBatches (fun _ _ => UpdResp.ok) 5 2
          (filterItemsWithAttributes
            [[("old", "x"), ("id", "1")], [("id", "2")], [("old", "y"), ("id", "3")]]
            ["old"]) =
        .ok (sc, ec) ∧
      sc + ec = (filterItemsWithAttributes
            [[("old", "x"), ("id", "1")], [("id", "2")], [("old", "y"), ("id", "3")]]
            ["old"]).length ∧
      (filterItemsWithAttributes
            [[("old", "x"), ("id", "1")], [("id", "2")], [("old", "y"), ("id", "3")]]
            ["old"]).Sublist
        [[("old", "x"), ("id", "1")], [("id", "2")], [("old", "y"), ("id", "3")]] ∧
      (filterItemsWithAttributes
            [[("old", "x"), ("id", "1")], [("id", "2")], [("old", "y"), ("id", "3")]]
            ["old"]).length ≤
        ([[("old", "x"), ("id", "1")], [("id", "2")], [("old", "y"), ("id", "3")]] :
          List Item).length :=
  processItemsInBatches_counts_filter (fun _ _ => UpdResp.ok) 5 2
    [[("old", "x"), ("id", "1")], [("id", "2")], [("old", "y"), ("id", "3")]]
    ["old"] (by norm_num)

/-- C3: with maxRetries = 3 and a store that is rate-limited on the
first two sends and then succeeds, the mutator returns true after
exactly 3 sends and backoff sleeps at attempts 0 and 1; in general a
rate-limiting error with remaining retries sleeps with the current
attempt number, increments it and retries, and the total number of
sends never exceeds maxRetries. -/
theorem updateItemWithRetry_throttle_scenario :
    updateItemWithRetry
        (fun k => if k < 2 then UpdResp.err .throttling else UpdResp.ok) 3 =
      .ok ⟨true, 3, [0, 1]⟩ ∧
    (∀ (store : ℕ → UpdResp) (maxRetries attempt : ℕ) (sleeps : List ℕ) (e : StoreErr),
      store attempt = .err e → StoreErr.isRateLimit e = true →
      attempt < maxRetries - 1 →
      updateRetryLoop store maxRetries attempt sleeps =
        updateRetryLoop store maxRetries (attempt + 1) (sleeps ++ [attempt])) ∧
    (∀ (store : ℕ → UpdResp) (maxRetries : ℕ) (r : UpdResult),
      updateItemWithRetry store maxRetries = .ok r → r.calls ≤ maxRetries) := by
  refine ⟨?_, ?_, ?_⟩
  · calc updateRetryLoop
          (fun k => if k < 2 then UpdResp.err .throttling else UpdResp.ok) 3 0 []
        = updateRetryLoop
          (fun k => if k < 2 then UpdResp.err .throttling else UpdResp.ok) 3 1 [0] :=
          updateRetryLoop_send_retry _ 3 0 [] .throttling (by norm_num) rfl
            ⟨rfl, by norm_num⟩
      _ = updateRetryLoop
          (fun k => if k < 2 then UpdResp.err .throttling else UpdResp.ok) 3 2 [0, 1] :=
          updateRetryLoop_send_retry _ 3 1 [0] .throttling (by norm_num) rfl
            ⟨rfl, by norm_num⟩
      _ = .ok ⟨true, 3, [0, 1]⟩ :=
          updateRetryLoop_send_ok _ _ _ _ (by norm_num) (by norm_num)
  · intro store maxRetries attempt sleeps e hs hrl hlt
    exact updateRetryLoop_send_retry _ _ _ _ _ (by omega) hs ⟨hrl, hlt⟩
  · intro store maxRetries r hr
    obtain ⟨r0, hr0, hc⟩ := updateItemWithRetry_ok store maxRetries
    rw [hr0] at hr
    cases Except.ok.inj hr
    exact hc

/-- C3 witness: the general retry step applied at attempt 0 with
maxRetries 3 and a persistently throttling store. -/
theorem updateItemWithRetry_throttle_scenario_witness :
    updateRetryLoop (fun _ => UpdResp.err .throttling) 3 0 [] =
      updateRetryLoop (fun _ => UpdResp.err .throttling) 3 1 ([] ++ [0]) :=
  updateItemWithRetry_throttle_scenario.2.1 (fun _ => UpdResp.err .throttling)
    3 0 [] .throttling rfl rfl (by norm_num)

/-- C4: the mutator never propagates an error: it always returns a
boolean outcome; on a caught error that is not rate-limiting, or is
rate-limiting with no remaining retries, it returns false; and the
batch pipeline consequently always completes, producing an outcome for
every record. -/
theorem updateItemWithRetry_never_throws :
    (∀ (store : ℕ → UpdResp) (maxRetries : ℕ), ∃ r : UpdResult,
      updateItemWithRetry store maxRetries = .ok r) ∧
    (∀ (store : ℕ → UpdResp) (maxRetries attempt : ℕ) (sleeps : List ℕ) (e : StoreErr),
      attempt < maxRetries → store attempt = .err e →
      (StoreErr.isRateLimit e = false ∨ ¬ attempt < maxRetries - 1) →
      updateRetryLoop store maxRetries attempt sleeps =
        .ok ⟨false, attempt + 1, sleeps⟩) ∧
    (∀ (respOf : Item → ℕ → UpdResp) (maxRetries B : ℕ) (items : List Item), 0 < B →
      ∃ sc ec, processItemsInBatches respOf maxRetries B items = .ok (sc, ec) ∧
        sc + ec = items.length) := by
  refine ⟨?_, ?_, ?_⟩
  · intro store maxRetries
    obtain ⟨r, hr, _⟩ := updateItemWithRetry_ok store maxRetries
    exact ⟨r, hr⟩
  · intro store maxRetries attempt sleeps e h hs hc
    refine updateRetryLoop_send_fail _ _ _ _ _ h hs ?_
    rcases hc with hc | hc
    · exact fun hand => by simp [hc] at hand
    · exact fun hand => hc hand.2
  · exact fun respOf maxRetries B items hB =>
      processItemsInBatches_total respOf maxRetries B items hB

/-- C4 witness: a persistently failing store with maxRetries 1 returns
false at once, and a two-record batch still counts both records. -/
theorem updateItemWithRetry_never_throws_witness :
    updateRetryLoop (fun _ => UpdResp.err (.other "AccessDenied")) 1 0 [] =
      .ok ⟨false, 0 + 1, []⟩ ∧
    (∃ sc ec, processItemsInBatches
        (fun _ _ => UpdResp.err (.other "AccessDenied")) 1 1
        [[("a", "1")], [("b", "2")]] = .ok (sc, ec) ∧
      sc + ec = ([[("a", "1")], [("b", "2")]] : List Item).length) :=
  ⟨updateItemWithRetry_never_throws.2.1 (fun _ => UpdResp.err (.other "AccessDenied"))
      1 0 [] (.other "AccessDenied") (by norm_num) rfl (Or.inl rfl),
   updateItemWithRetry_never_throws.2.2 (fun _ _ => UpdResp.err (.other "AccessDenied"))
      1 1 [[("a", "1")], [("b", "2")]] (by norm_num)⟩

/-- C6 witness: removal list of a and b against a record with fields b
and c: the single placeholder maps to b and the expression is that of
one placeholder. -/
theorem createUpdateExpression_removal_witness :
    (UpdateExpr.mk (removeExpressionString 1)
        [("#attr0", "b")]).ExpressionAttributeNames.map Prod.snd =
      ["a", "b"].filter (fun attr => hasOwnProperty [("b", "1"), ("c", "2")] attr) ∧
    (UpdateExpr.mk (removeExpressionString 1)
        [("#attr0", "b")]).ExpressionAttributeNames.map Prod.fst =
      (List.range (["a", "b"].filter (fun attr =>
        hasOwnProperty [("b", "1"), ("c", "2")] attr)).length).map placeholderName ∧
    (UpdateExpr.mk (removeExpressionString 1) [("#attr0", "b")]).UpdateExpression =
      removeExpressionString (["a", "b"].filter (fun attr =>
        hasOwnProperty [("b", "1"), ("c", "2")] attr)).length :=
  (createUpdateExpression_removal ["a", "b"] [("b", "1"), ("c", "2")]).2
    ⟨removeExpressionString 1, [("#attr0", "b")]⟩ (by rfl)

/-- C5 witness: the filter at a concrete pair of records keeps a
subsequence and re-applying it changes nothing. -/
theorem filterItemsWithAttributes_select_witness :
    (filterItemsWithAttributes [[("old", "x")], [("id", "2")]] ["old"]).Sublist
      [[("old", "x")], [("id", "2")]] ∧
    filterItemsWithAttributes
        (filterItemsWithAttributes [[("old", "x")], [("id", "2")]] ["old"]) ["old"] =
      filterItemsWithAttributes [[("old", "x")], [("id", "2")]] ["old"] :=
  ⟨(filterItemsWithAttributes_select [[("old", "x")], [("id", "2")]] ["old"]).1,
   (filterItemsWithAttributes_select [[("old", "x")], [("id", "2")]] ["old"]).2.2.2⟩

/-- C10 witness: maxRetries 0 at a concrete store. -/
theorem updateItemWithRetry_zero_retries_witness :
    updateItemWithRetry (fun _ => UpdResp.ok) 0 = .ok ⟨false, 0, []⟩ :=
  updateItemWithRetry_zero_retries (fun _ => UpdResp.ok)

end DynamoCleanup
